import Mathlib

/-!
Shallow embedding of the Riyal/Mercle token contract
(`programs/riyal_contract/src/lib.rs`, `signature.rs`, `errors.rs`,
`token_state.rs`) and proofs about its claim-authorization protocol.

Machine integers are modelled as `Nat` (u64, with explicit `< 2^64`
bounds where overflow matters) and `Int` (i64, with explicit
`[-2^63, 2^63)` bounds).  Byte strings are `List Nat` with each
element `< 256`.  Fallible Rust code (`require!`, `checked_add`,
`Option`) becomes `Except` / `Option`.
-/

/-- u64::MAX. -/
def U64_MAX : Nat := 2 ^ 64 - 1

/-- i64::MAX. -/
def I64_MAX : Int := 2 ^ 63 - 1

/-- i64::MIN. -/
def I64_MIN : Int := -(2 ^ 63)

/-- Rust `i64::saturating_add`. -/
def i64SaturatingAdd (a b : Int) : Int :=
  if a + b > I64_MAX then I64_MAX
  else if a + b < I64_MIN then I64_MIN
  else a + b

/-- Rust `i64::checked_add` (`none` on overflow). -/
def i64CheckedAdd (a b : Int) : Option Int :=
  if a + b > I64_MAX ∨ a + b < I64_MIN then none else some (a + b)

/-- Rust `u64::checked_add` (`none` on overflow). -/
def u64CheckedAdd (a b : Nat) : Option Nat :=
  if a + b > U64_MAX then none else some (a + b)

/-- Little-endian base-256 encoding of `n` into `k` bytes
(the encoding used by borsh for fixed-width integers). -/
def natToLE : Nat → Nat → List Nat
  | 0, _ => []
  | k + 1, n => n % 256 :: natToLE k (n / 256)

/-- Little-endian base-256 decoding; inverse of `natToLE` below its range. -/
def leToNat : List Nat → Nat
  | [] => 0
  | b :: bs => b + 256 * leToNat bs

/-- borsh encoding of a `u64`: 8 bytes little-endian. -/
def u64le (n : Nat) : List Nat := natToLE 8 n

/-- borsh encoding of an `i64`: two's-complement, 8 bytes little-endian. -/
def i64le (z : Int) : List Nat := natToLE 8 (z % (2 ^ 64)).toNat

/-- A Solana public key: 32 raw bytes. -/
structure Pubkey where
  bytes : List Nat
deriving DecidableEq, Repr

/-- Well-formedness of a key: exactly 32 bytes, each a byte. -/
def Pubkey.wf (p : Pubkey) : Prop := p.bytes.length = 32 ∧ ∀ b ∈ p.bytes, b < 256

/-- `Pubkey::default()`: the all-zero key. -/
def Pubkey.dflt : Pubkey := ⟨List.replicate 32 0⟩

/-- `crate::ID`, the bytes of `DUALvp1DCViwVuWYPF66uPcdwiGXXLSW1pPXcAei3ihK`
from `declare_id!` in `lib.rs`. -/
def crateID : Pubkey :=
  ⟨[185, 65, 125, 98, 112, 17, 242, 240, 220, 225, 250, 182, 132, 225, 14, 225,
    50, 173, 192, 76, 66, 175, 146, 160, 17, 243, 88, 1, 70, 84, 221, 166]⟩

/-- `ed25519_program::ID`, the bytes of
`Ed25519SigVerify111111111111111111111111111`. -/
def ed25519ProgramID : Pubkey :=
  ⟨[3, 125, 70, 214, 124, 147, 251, 190, 18, 249, 66, 143, 131, 141, 64, 255,
    5, 112, 116, 73, 39, 244, 138, 100, 252, 202, 112, 68, 128, 0, 0, 0]⟩

/-- The ASCII bytes of the domain tag `"MERCLE_CLAIM_V1"`. -/
def domainTag : List Nat :=
  [77, 69, 82, 67, 76, 69, 95, 67, 76, 65, 73, 77, 95, 86, 49]

/-- `ClaimPayload` from `lib.rs`: the struct signed by the admin. -/
structure ClaimPayload where
  user_address : Pubkey
  claim_amount : Nat
  expiry_time : Int
  nonce : Nat
deriving DecidableEq, Repr

/-- Well-formedness: the key is 32 bytes and the integers fit their
machine widths (u64 / i64 / u64). -/
def ClaimPayload.wf (p : ClaimPayload) : Prop :=
  p.user_address.wf ∧ p.claim_amount < 2 ^ 64 ∧
  I64_MIN ≤ p.expiry_time ∧ p.expiry_time ≤ I64_MAX ∧ p.nonce < 2 ^ 64

/-- `payload.try_to_vec()`: borsh serialization of `ClaimPayload`
(fields in declaration order, keys as 32 raw bytes, integers 8-byte LE). -/
def ClaimPayload.toBytes (p : ClaimPayload) : List Nat :=
  p.user_address.bytes ++ u64le p.claim_amount ++ i64le p.expiry_time ++ u64le p.nonce

/-- The domain-separated message built in `claim_tokens`
(lib.rs lines 612-620): `"MERCLE_CLAIM_V1" | crate::ID | payload_bytes`. -/
def claimMessage (p : ClaimPayload) : List Nat :=
  domainTag ++ crateID.bytes ++ p.toBytes

/-- The error enum of `errors.rs` (variants used by the embedded
operations). -/
inductive MercleError where
  | UnauthorizedAdmin
  | ContractNotInitialized
  | TokenMintAlreadyCreated
  | TokenMintNotCreated
  | InvalidTokenMint
  | InvalidTokenAccount
  | InvalidMintAmount
  | InvalidUserData
  | InvalidNonce
  | InvalidAdminSignature
  | NonceOverflow
  | ClaimTooSoon
  | ClaimTooFrequent
  | InvalidNonceSequence
  | ClaimCountOverflow
  | AdminSignatureNotVerified
  | InvalidClaimPeriod
  | ClaimTimeLocked
  | ClaimPeriodNotElapsed
  | TimestampOverflow
  | TransfersAlreadyPermanentlyEnabled
  | UnauthorizedDestination
  | ClaimExpired
  | InvalidClaimPayload
  | TransfersPermanentlyEnabled
  | UnauthorizedUpgradeAuthority
  | ContractNotUpgradeable
  | TreasuryAlreadyCreated
deriving DecidableEq, Repr

/-- `TokenState` from `token_state.rs` / `lib.rs`: the singleton policy
account. -/
structure TokenState where
  admin : Pubkey
  token_mint : Pubkey
  treasury_account : Pubkey
  upgrade_authority : Pubkey
  is_initialized : Bool
  transfers_enabled : Bool
  transfers_permanently_enabled : Bool
  transfer_enable_timestamp : Int
  claim_period_seconds : Int
  time_lock_enabled : Bool
  upgradeable : Bool
  token_name : String
  token_symbol : String
  decimals : Nat
  bump : Nat
deriving DecidableEq, Repr

/-- `UserData` from `lib.rs`: the per-user claim-state account. -/
structure UserData where
  user : Pubkey
  nonce : Nat
  last_claim_timestamp : Int
  next_allowed_claim_time : Int
  total_claims : Nat
  bump : Nat
deriving DecidableEq, Repr

/-- An SPL token account, restricted to the fields the handlers read. -/
structure TokenAccount where
  mint : Pubkey
  owner : Pubkey
  amount : Nat
deriving DecidableEq, Repr

/-- An SPL mint account, restricted to the fields the handlers read
(`key` and `mint_authority : COption<Pubkey>`). -/
structure MintAccount where
  key : Pubkey
  mint_authority : Option Pubkey
deriving DecidableEq, Repr

/-- One instruction of the enclosing transaction, as seen through the
instructions sysvar (`program_id`, raw `data`). -/
structure Instruction where
  program_id : Pubkey
  data : List Nat
deriving DecidableEq, Repr

/-- `read_u8` from `signature.rs`: `data.get(offset).copied()`. -/
def read_u8 (data : List Nat) (offset : Nat) : Option Nat :=
  data.get? offset

/-- `read_u16_le` from `signature.rs`: both bytes must be in bounds. -/
def read_u16_le (data : List Nat) (offset : Nat) : Option Nat :=
  match data.get? offset, data.get? (offset + 1) with
  | some b0, some b1 => some (b0 + 256 * b1)
  | _, _ => none

/-- `&data[off..off+len]` as a list slice. -/
def sliceBytes (data : List Nat) (off len : Nat) : List Nat :=
  (data.drop off).take len

/-- `parse_ed25519_single` from `signature.rs` (lines 43-68): parse a
single-signature Ed25519 precompile instruction, returning
`(publicKey, signature, message)` or `none` when malformed. -/
def parse_ed25519_single (data : List Nat) :
    Option (List Nat × List Nat × List Nat) :=
  if data.length < 16 then none else
  match read_u8 data 0 with
  | none => none
  | some num_sigs =>
    if num_sigs ≠ 1 then none else
    match read_u8 data 1, read_u16_le data 2, read_u16_le data 4,
          read_u16_le data 6, read_u16_le data 8, read_u16_le data 10,
          read_u16_le data 12, read_u16_le data 14 with
    | some _, some sig_off, some _, some pk_off, some _, some msg_off,
      some msg_size, some _ =>
      if pk_off + 32 > data.length then none
      else if sig_off + 64 > data.length then none
      else if msg_off + msg_size > data.length then none
      else some (sliceBytes data pk_off 32, sliceBytes data sig_off 64,
                 sliceBytes data msg_off msg_size)
    | _, _, _, _, _, _, _, _ => none

/-- One iteration of the scan loop in `verify_admin_signature_only`
(signature.rs lines 71-84): update the `admin_verified` accumulator from
instruction `i` of the transaction (`none` models a failed
`load_instruction_at_checked`, which the loop ignores). -/
def verifyStep (message_bytes admin_signature : List Nat)
    (admin_pubkey : Pubkey) (admin_verified : Bool)
    (oinst : Option Instruction) : Bool :=
  match oinst with
  | none => admin_verified
  | some inst =>
    if inst.program_id = ed25519ProgramID then
      match parse_ed25519_single inst.data with
      | some (pk, sig, msg) =>
        if msg = message_bytes then
          if ¬ admin_verified ∧ pk = admin_pubkey.bytes ∧
             sig = admin_signature then true
          else admin_verified
        else admin_verified
      | none => admin_verified
    else admin_verified

/-- The scan loop `for i in 0..current_index` of
`verify_admin_signature_only`, starting from `admin_verified = false`. -/
def scanInstructions (instrs : List Instruction) (currentIndex : Nat)
    (message_bytes admin_signature : List Nat)
    (admin_pubkey : Pubkey) : Bool :=
  (List.range currentIndex).foldl
    (fun acc i =>
      verifyStep message_bytes admin_signature admin_pubkey acc (instrs.get? i))
    false

/-- `verify_admin_signature_only` from `signature.rs`: scan the
preceding instructions; fail with `AdminSignatureNotVerified` when no
matching Ed25519 record was found. -/
def verify_admin_signature_only (instrs : List Instruction)
    (currentIndex : Nat) (message_bytes : List Nat)
    (admin_signature : List Nat) (admin_pubkey : Pubkey) :
    Except MercleError Unit :=
  if scanInstructions instrs currentIndex message_bytes admin_signature
      admin_pubkey then
    .ok ()
  else
    .error .AdminSignatureNotVerified

/-- The contract-creation handler (lib.rs lines 33-75): create the
policy account.  (Named `initContract` here; the Rust handler's own
name cannot be used as a Lean identifier in this development.) -/
def initContract (admin upgrade_authority : Pubkey)
    (claim_period_seconds : Int) (time_lock_enabled upgradeable : Bool) :
    Except MercleError TokenState :=
  if ¬ (claim_period_seconds ≥ 30) then .error .InvalidClaimPeriod
  else if ¬ (claim_period_seconds ≤ 31536000) then .error .InvalidClaimPeriod
  else .ok {
    admin := admin
    upgrade_authority := upgrade_authority
    is_initialized := true
    token_mint := Pubkey.dflt
    treasury_account := Pubkey.dflt
    transfers_enabled := false
    transfers_permanently_enabled := false
    transfer_enable_timestamp := 0
    claim_period_seconds := claim_period_seconds
    time_lock_enabled := time_lock_enabled
    upgradeable := upgradeable
    token_name := ""
    token_symbol := ""
    decimals := 0
    bump := 0 }

/-- `create_token_mint` (lib.rs lines 78-122). -/
def create_token_mint (ts : TokenState) (admin_key mint_key : Pubkey)
    (decimals : Nat) (name symbol : String) :
    Except MercleError TokenState :=
  if ¬ (admin_key = ts.admin) then .error .UnauthorizedAdmin
  else if ¬ ts.is_initialized then .error .ContractNotInitialized
  else if ¬ (ts.token_mint = Pubkey.dflt) then .error .TokenMintAlreadyCreated
  else .ok { ts with
    token_mint := mint_key
    token_name := name
    token_symbol := symbol
    decimals := decimals
    transfers_enabled := false }

/-- `update_token_mint` (lib.rs lines 125-163), including the
`UpdateTokenMint` accounts constraint
`mint.mint_authority == COption::Some(token_state.key())` which Anchor
checks before the handler body runs. -/
def update_token_mint (ts : TokenState) (token_state_key : Pubkey)
    (mint : MintAccount) (admin_key : Pubkey) (decimals : Nat)
    (name symbol : String) : Except MercleError TokenState :=
  if ¬ (mint.mint_authority = some token_state_key) then .error .InvalidTokenMint
  else if ¬ (admin_key = ts.admin) then .error .UnauthorizedAdmin
  else if ¬ ts.is_initialized then .error .ContractNotInitialized
  else .ok { ts with
    token_mint := mint.key
    token_name := name
    token_symbol := symbol
    decimals := decimals
    treasury_account := Pubkey.dflt }

/-- `pause_transfers` (lib.rs lines 184-213). -/
def pause_transfers (ts : TokenState) (admin_key : Pubkey) :
    Except MercleError TokenState :=
  if ¬ (admin_key = ts.admin) then .error .UnauthorizedAdmin
  else if ¬ ts.is_initialized then .error .ContractNotInitialized
  else if ¬ (¬ ts.transfers_permanently_enabled) then
    .error .TransfersPermanentlyEnabled
  else .ok { ts with transfers_enabled := false }

/-- `resume_transfers` (lib.rs lines 216-244). -/
def resume_transfers (ts : TokenState) (admin_key : Pubkey) (now : Int) :
    Except MercleError TokenState :=
  if ¬ (admin_key = ts.admin) then .error .UnauthorizedAdmin
  else if ¬ ts.is_initialized then .error .ContractNotInitialized
  else .ok { ts with
    transfers_enabled := true
    transfer_enable_timestamp := now }

/-- `permanently_enable_transfers` (lib.rs lines 247-276). -/
def permanently_enable_transfers (ts : TokenState) (admin_key : Pubkey)
    (now : Int) : Except MercleError TokenState :=
  if ¬ (admin_key = ts.admin) then .error .UnauthorizedAdmin
  else if ¬ ts.is_initialized then .error .ContractNotInitialized
  else .ok { ts with
    transfers_enabled := true
    transfers_permanently_enabled := true
    transfer_enable_timestamp := now }

/-- `enable_transfers` (lib.rs lines 798-847). -/
def enable_transfers (ts : TokenState) (admin_key : Pubkey) (now : Int) :
    Except MercleError TokenState :=
  if ¬ (admin_key = ts.admin) then .error .UnauthorizedAdmin
  else if ¬ ts.is_initialized then .error .ContractNotInitialized
  else if ¬ (¬ (ts.token_mint = Pubkey.dflt)) then .error .TokenMintNotCreated
  else if ¬ (¬ ts.transfers_permanently_enabled) then
    .error .TransfersAlreadyPermanentlyEnabled
  else .ok { ts with
    transfers_enabled := true
    transfers_permanently_enabled := true
    transfer_enable_timestamp := now }

/-- `update_time_lock` (lib.rs lines 1024-1076). -/
def update_time_lock (ts : TokenState) (admin_key : Pubkey)
    (claim_period_seconds : Int) (time_lock_enabled : Bool) :
    Except MercleError TokenState :=
  if ¬ (admin_key = ts.admin) then .error .UnauthorizedAdmin
  else if ¬ ts.is_initialized then .error .ContractNotInitialized
  else if ¬ (claim_period_seconds ≥ 3600) then .error .InvalidClaimPeriod
  else if ¬ (claim_period_seconds ≤ 31536000) then .error .InvalidClaimPeriod
  else .ok { ts with
    claim_period_seconds := claim_period_seconds
    time_lock_enabled := time_lock_enabled }

/-- `set_upgrade_authority` (lib.rs lines 1079-1131). -/
def set_upgrade_authority (ts : TokenState) (caller_key : Pubkey)
    (new_upgrade_authority : Option Pubkey) :
    Except MercleError TokenState :=
  if ¬ (caller_key = ts.upgrade_authority) then
    .error .UnauthorizedUpgradeAuthority
  else if ¬ ts.is_initialized then .error .ContractNotInitialized
  else if ¬ ts.upgradeable then .error .ContractNotUpgradeable
  else
    match new_upgrade_authority with
    | some new_auth => .ok { ts with upgrade_authority := new_auth }
    | none => .ok { ts with
        upgrade_authority := Pubkey.dflt
        upgradeable := false }

/-- `create_treasury` (lib.rs lines 1176-1218). -/
def create_treasury (ts : TokenState) (admin_key treasury_key : Pubkey) :
    Except MercleError TokenState :=
  if ¬ (admin_key = ts.admin) then .error .UnauthorizedAdmin
  else if ¬ ts.is_initialized then .error .ContractNotInitialized
  else if ¬ (¬ (ts.token_mint = Pubkey.dflt)) then .error .TokenMintNotCreated
  else if ¬ (ts.treasury_account = Pubkey.dflt) then
    .error .TreasuryAlreadyCreated
  else .ok { ts with treasury_account := treasury_key }

/-- The time-lock / spacing checks of `claim_tokens`
(lib.rs lines 568-596): `some e` is the error the first failing
`require!` raises, `none` means admission. -/
def timeAdmission (ts : TokenState) (ud : UserData) (now : Int) :
    Option MercleError :=
  if ts.time_lock_enabled then
    if ¬ (now ≥ ud.next_allowed_claim_time) then some .ClaimTimeLocked
    else if ud.total_claims > 0 ∧
        ¬ (now ≥ i64SaturatingAdd ud.last_claim_timestamp ts.claim_period_seconds)
    then some .ClaimPeriodNotElapsed
    else none
  else
    if ud.last_claim_timestamp > 0 then
      if ¬ (now > ud.last_claim_timestamp) then some .ClaimTooSoon
      else if ¬ (now ≥ i64SaturatingAdd ud.last_claim_timestamp 1) then
        some .ClaimTooFrequent
      else none
    else none

/-- `claim_tokens` (lib.rs lines 503-712).  Returns the updated
`UserData` on success.  `mint_to` and `freeze_account` are external
token-ledger calls with no effect on the program's own state; the
`admin_signature.len() == 64` check is kept (the signature is a byte
list here, a `[u8; 64]` in Rust). -/
def claim_tokens (ts : TokenState) (ud : UserData) (mint_key : Pubkey)
    (user_token_account : TokenAccount) (user_key : Pubkey)
    (instrs : List Instruction) (currentIndex : Nat)
    (payload : ClaimPayload) (admin_signature : List Nat) (now : Int) :
    Except MercleError UserData :=
  if ¬ ts.is_initialized then .error .ContractNotInitialized
  else if ¬ (¬ (ts.token_mint = Pubkey.dflt)) then .error .TokenMintNotCreated
  else if ¬ (mint_key = ts.token_mint) then .error .InvalidTokenMint
  else if ¬ (user_token_account.mint = ts.token_mint) then
    .error .InvalidTokenAccount
  else if ¬ (payload.user_address = user_key) then
    .error .UnauthorizedDestination
  else if ¬ (user_token_account.owner = user_key) then
    .error .UnauthorizedDestination
  else if ¬ (payload.claim_amount > 0) then .error .InvalidMintAmount
  else if ¬ (ud.user = user_key) then .error .InvalidUserData
  else if ¬ (payload.nonce = ud.nonce) then .error .InvalidNonce
  else match timeAdmission ts ud now with
  | some e => .error e
  | none =>
    if ud.total_claims > 0 ∧ ¬ (payload.nonce = ud.nonce) then
      .error .InvalidNonceSequence
    else if ¬ (now ≤ payload.expiry_time) then .error .ClaimExpired
    else
      if ¬ (admin_signature.length = 64) then .error .InvalidAdminSignature
      else if ¬ (admin_signature.foldl (· + ·) 0 > 0) then
        .error .InvalidAdminSignature
      else match verify_admin_signature_only instrs currentIndex
          (claimMessage payload) admin_signature ts.admin with
      | .error e => .error e
      | .ok _ =>
        match u64CheckedAdd ud.nonce 1 with
        | none => .error .NonceOverflow
        | some new_nonce =>
          match u64CheckedAdd ud.total_claims 1 with
          | none => .error .ClaimCountOverflow
          | some new_total =>
            if ts.time_lock_enabled then
              match i64CheckedAdd now ts.claim_period_seconds with
              | none => .error .TimestampOverflow
              | some next_time => .ok { ud with
                  nonce := new_nonce
                  last_claim_timestamp := now
                  total_claims := new_total
                  next_allowed_claim_time := next_time }
            else .ok { ud with
              nonce := new_nonce
              last_claim_timestamp := now
              total_claims := new_total
              next_allowed_claim_time := i64SaturatingAdd now 1 }

/-- Example user key used in concrete witnesses. -/
def exUser : Pubkey := ⟨List.replicate 32 2⟩

/-- Example mint key used in concrete witnesses. -/
def exMint : Pubkey := ⟨List.replicate 32 3⟩

/-- Example admin key used in concrete witnesses. -/
def exAdminPk : Pubkey := ⟨List.replicate 32 5⟩

/-- Example signature bytes (64 bytes, nonzero sum). -/
def exSig : List Nat := List.replicate 64 9

/-- Example message for the standalone verifier witnesses. -/
def exMsg : List Nat := [7]

/-- A well-formed Ed25519 precompile instruction payload carrying
`exAdminPk` / `exSig` / `exMsg` (header, then pk at 16, sig at 48,
message at 112 with size 1). -/
def exEdData : List Nat :=
  [1, 0, 48, 0, 0, 0, 16, 0, 0, 0, 112, 0, 1, 0, 0, 0] ++
  exAdminPk.bytes ++ exSig ++ exMsg

/-- The instruction wrapping `exEdData`, addressed to the precompile. -/
def exEdInstr : Instruction := ⟨ed25519ProgramID, exEdData⟩

/-- Example policy state: initialized, mint set, time-lock on with a
3600-second period. -/
def exTS : TokenState :=
  { admin := exAdminPk
    token_mint := exMint
    treasury_account := Pubkey.dflt
    upgrade_authority := ⟨List.replicate 32 4⟩
    is_initialized := true
    transfers_enabled := false
    transfers_permanently_enabled := false
    transfer_enable_timestamp := 0
    claim_period_seconds := 3600
    time_lock_enabled := true
    upgradeable := true
    token_name := "Riyal"
    token_symbol := "RYL"
    decimals := 9
    bump := 0 }

/-- Example fresh user state (never claimed). -/
def exUD : UserData :=
  { user := exUser
    nonce := 0
    last_claim_timestamp := 0
    next_allowed_claim_time := 0
    total_claims := 0
    bump := 0 }

/-- Example destination token account owned by `exUser`. -/
def exUTA : TokenAccount := { mint := exMint, owner := exUser, amount := 0 }

/-- Example claim payload for `exUser`, nonce 0, expiring at 1000. -/
def exPayload : ClaimPayload :=
  { user_address := exUser
    claim_amount := 100
    expiry_time := 1000
    nonce := 0 }

/-- An Ed25519 precompile payload whose message is
`claimMessage exPayload` (103 bytes at offset 112), signed bytes
`exSig`, public key `exAdminPk`. -/
def exClaimEdData : List Nat :=
  [1, 0, 48, 0, 0, 0, 16, 0, 0, 0, 112, 0, 103, 0, 0, 0] ++
  exAdminPk.bytes ++ exSig ++ claimMessage exPayload

/-- The precompile instruction wrapping `exClaimEdData`. -/
def exClaimInstr : Instruction := ⟨ed25519ProgramID, exClaimEdData⟩

/-- The user state after the example claim succeeds at time 500. -/
def exUD2 : UserData :=
  { user := exUser
    nonce := 1
    last_claim_timestamp := 500
    next_allowed_claim_time := 4100
    total_claims := 1
    bump := 0 }

lemma natToLE_length (k n : Nat) : (natToLE k n).length = k := by
  induction k generalizing n with
  | zero => simp [natToLE]
  | succ k ih => simp [natToLE, ih]

lemma u64le_length (n : Nat) : (u64le n).length = 8 := natToLE_length 8 n

lemma i64le_length (z : Int) : (i64le z).length = 8 := natToLE_length 8 _

lemma leToNat_natToLE (k n : Nat) : leToNat (natToLE k n) = n % 256 ^ k := by
  induction k generalizing n with
  | zero => simp [natToLE, leToNat, Nat.mod_one]
  | succ k ih =>
    simp only [natToLE, leToNat, ih]
    rw [Nat.pow_succ, Nat.mul_comm (256 ^ k) 256, Nat.mod_mul]

lemma u64le_inj {m n : Nat} (hm : m < 2 ^ 64) (hn : n < 2 ^ 64)
    (h : u64le m = u64le n) : m = n := by
  have h1 := congrArg leToNat h
  unfold u64le at h1
  rw [leToNat_natToLE, leToNat_natToLE] at h1
  have e : (256 : Nat) ^ 8 = 2 ^ 64 := by norm_num
  rw [e, Nat.mod_eq_of_lt hm, Nat.mod_eq_of_lt hn] at h1
  exact h1

lemma i64le_inj {a b : Int} (ha1 : I64_MIN ≤ a) (ha2 : a ≤ I64_MAX)
    (hb1 : I64_MIN ≤ b) (hb2 : b ≤ I64_MAX)
    (h : i64le a = i64le b) : a = b := by
  have h1 := congrArg leToNat h
  unfold i64le at h1
  rw [leToNat_natToLE, leToNat_natToLE] at h1
  have e : (256 : Nat) ^ 8 = 18446744073709551616 := by norm_num
  have e2 : (2 : Int) ^ 64 = 18446744073709551616 := by norm_num
  rw [e, e2] at h1
  simp only [I64_MIN, I64_MAX] at ha1 ha2 hb1 hb2
  norm_num at ha1 ha2 hb1 hb2
  omega

lemma claimPayload_toBytes_inj {p q : ClaimPayload} (hp : p.wf) (hq : q.wf)
    (h : p.toBytes = q.toBytes) : p = q := by
  obtain ⟨⟨hplen, -⟩, hpa, hpe1, hpe2, hpn⟩ := hp
  obtain ⟨⟨hqlen, -⟩, hqa, hqe1, hqe2, hqn⟩ := hq
  unfold ClaimPayload.toBytes at h
  simp only [List.append_assoc] at h
  obtain ⟨haddr, h2⟩ := List.append_inj h (hplen.trans hqlen.symm)
  obtain ⟨hamt, h3⟩ := List.append_inj h2
    ((u64le_length _).trans (u64le_length _).symm)
  obtain ⟨hexp, hnon⟩ := List.append_inj h3
    ((i64le_length _).trans (i64le_length _).symm)
  obtain ⟨a1, a2, a3, a4⟩ := p
  obtain ⟨b1, b2, b3, b4⟩ := q
  simp only at haddr hamt hexp hnon hpa hqa hpe1 hpe2 hqe1 hqe2 hpn hqn
  have e1 : a1 = b1 := by cases a1; cases b1; simpa using haddr
  have e2 : a2 = b2 := u64le_inj hpa hqa hamt
  have e3 : a3 = b3 := i64le_inj hpe1 hpe2 hqe1 hqe2 hexp
  have e4 : a4 = b4 := u64le_inj hpn hqn hnon
  simp [e1, e2, e3, e4]

lemma claimMessage_toBytes_eq {p q : ClaimPayload}
    (h : claimMessage p = claimMessage q) : p.toBytes = q.toBytes := by
  unfold claimMessage at h
  simp only [List.append_assoc] at h
  exact (List.append_inj (List.append_inj h rfl).2 rfl).2

lemma claimMessage_inj {p q : ClaimPayload} (hp : p.wf) (hq : q.wf)
    (h : claimMessage p = claimMessage q) : p = q :=
  claimPayload_toBytes_inj hp hq (claimMessage_toBytes_eq h)

/-- The matching predicate of the spec: instruction `i` (as fetched,
`none` = fetch failed) is an Ed25519-precompile record whose decoded
message, public key and signature all equal the expected ones. -/
def MatchesAdmin (message_bytes admin_signature : List Nat)
    (admin_pubkey : Pubkey) (oinst : Option Instruction) : Prop :=
  ∃ inst pk sig msg, oinst = some inst ∧
    inst.program_id = ed25519ProgramID ∧
    parse_ed25519_single inst.data = some (pk, sig, msg) ∧
    msg = message_bytes ∧ pk = admin_pubkey.bytes ∧ sig = admin_signature

lemma verifyStep_true_iff (m s : List Nat) (p : Pubkey) (acc : Bool)
    (o : Option Instruction) :
    verifyStep m s p acc o = true ↔ acc = true ∨ MatchesAdmin m s p o := by
  cases o with
  | none => simp [verifyStep, MatchesAdmin]
  | some inst =>
    unfold verifyStep
    by_cases hprog : inst.program_id = ed25519ProgramID
    · simp only [hprog, if_true]
      cases hp : parse_ed25519_single inst.data with
      | none => simp [MatchesAdmin, hp]
      | some t =>
        obtain ⟨pk, sig, msg⟩ := t
        by_cases hm : msg = m
        · by_cases hmatch : pk = p.bytes ∧ sig = s
          · cases acc <;> simp_all [MatchesAdmin] <;> aesop
          · cases acc <;> simp_all [MatchesAdmin] <;> aesop
        · cases acc <;> simp_all [MatchesAdmin] <;> aesop
    · simp only [hprog, if_false]
      simp [MatchesAdmin, hprog]

lemma scanInstructions_true_iff (instrs : List Instruction) (n : Nat)
    (m s : List Nat) (p : Pubkey) :
    scanInstructions instrs n m s p = true ↔
      ∃ i, i < n ∧ MatchesAdmin m s p (instrs.get? i) := by
  induction n with
  | zero => simp [scanInstructions]
  | succ n ih =>
    unfold scanInstructions at ih ⊢
    rw [List.range_succ, List.foldl_append]
    simp only [List.foldl_cons, List.foldl_nil]
    rw [verifyStep_true_iff]
    constructor
    · rintro (h | h)
      · obtain ⟨i, hi, hmi⟩ := ih.mp h
        exact ⟨i, Nat.lt_succ_of_lt hi, hmi⟩
      · exact ⟨n, Nat.lt_succ_self n, h⟩
    · rintro ⟨i, hi, hmi⟩
      rcases Nat.lt_succ_iff_lt_or_eq.mp hi with h' | h'
      · exact Or.inl (ih.mpr ⟨i, h', hmi⟩)
      · subst h'
        exact Or.inr hmi

lemma sliceBytes_length {data : List Nat} {off k : Nat}
    (h : off + k ≤ data.length) : (sliceBytes data off k).length = k := by
  simp only [sliceBytes, List.length_take, List.length_drop]
  omega

lemma parse_none_short {data : List Nat} (h : data.length < 16) :
    parse_ed25519_single data = none := by
  unfold parse_ed25519_single
  simp [h]

lemma parse_none_numsigs {data : List Nat} {k : Nat}
    (h0 : data.get? 0 = some k) (hk : k ≠ 1) :
    parse_ed25519_single data = none := by
  unfold parse_ed25519_single read_u8
  simp only [List.get?_eq_getElem?] at h0
  by_cases hl : data.length < 16
  · simp [hl]
  · simp [hl, h0, hk]

lemma parse_none_oob {data : List Nat} {sig_off pk_off msg_off msg_size : Nat}
    (h2 : read_u16_le data 2 = some sig_off)
    (h6 : read_u16_le data 6 = some pk_off)
    (h10 : read_u16_le data 10 = some msg_off)
    (h12 : read_u16_le data 12 = some msg_size)
    (hoob : pk_off + 32 > data.length ∨ sig_off + 64 > data.length ∨
            msg_off + msg_size > data.length) :
    parse_ed25519_single data = none := by
  unfold parse_ed25519_single
  repeat' split
  all_goals (first | rfl | (exfalso; simp_all; omega))

lemma parse_some_lengths {data pk sig msg : List Nat}
    (h : parse_ed25519_single data = some (pk, sig, msg)) :
    pk.length = 32 ∧ sig.length = 64 := by
  unfold parse_ed25519_single at h
  repeat' split at h
  all_goals (try cases h)
  refine ⟨sliceBytes_length ?_, sliceBytes_length ?_⟩ <;> omega

lemma ok_of_guard {α : Type} {c : Prop} [Decidable c] {e : MercleError}
    {rest : Except MercleError α} {v : α}
    (h : (if c then Except.error e else rest) = Except.ok v) :
    ¬c ∧ rest = Except.ok v := by
  by_cases hc : c
  · rw [if_pos hc] at h
    exact Except.noConfusion h
  · rw [if_neg hc] at h
    exact ⟨hc, h⟩

lemma ok_of_timeMatch {ta : Option MercleError}
    {rest : Except MercleError UserData} {v : UserData}
    (h : (match ta with
          | some e => Except.error (α := UserData) e
          | none => rest) = Except.ok v) :
    ta = none ∧ rest = Except.ok v := by
  cases ta with
  | none => exact ⟨rfl, h⟩
  | some e => exact Except.noConfusion h

lemma ok_of_exceptMatch {x : Except MercleError Unit}
    {rest : Except MercleError UserData} {v : UserData}
    (h : (match x with
          | Except.error e => Except.error (α := UserData) e
          | Except.ok _ => rest) = Except.ok v) :
    x = Except.ok () ∧ rest = Except.ok v := by
  cases x with
  | error e => exact Except.noConfusion h
  | ok a => exact ⟨rfl, h⟩

lemma ok_of_optNatMatch {o : Option Nat} {e : MercleError}
    {f : Nat → Except MercleError UserData} {v : UserData}
    (h : (match o with
          | none => Except.error e
          | some n => f n) = Except.ok v) :
    ∃ n, o = some n ∧ f n = Except.ok v := by
  cases o with
  | none => exact Except.noConfusion h
  | some n => exact ⟨n, rfl, h⟩

lemma ok_of_optIntMatch {o : Option Int} {e : MercleError}
    {f : Int → Except MercleError UserData} {v : UserData}
    (h : (match o with
          | none => Except.error e
          | some n => f n) = Except.ok v) :
    ∃ n, o = some n ∧ f n = Except.ok v := by
  cases o with
  | none => exact Except.noConfusion h
  | some n => exact ⟨n, rfl, h⟩

lemma u64CheckedAdd_some {a b n : Nat} (h : u64CheckedAdd a b = some n) :
    n = a + b ∧ a + b ≤ U64_MAX := by
  unfold u64CheckedAdd at h
  by_cases hc : a + b > U64_MAX
  · rw [if_pos hc] at h
    exact Option.noConfusion h
  · rw [if_neg hc] at h
    exact ⟨(Option.some.inj h).symm, Nat.le_of_not_lt hc⟩

lemma i64CheckedAdd_some {a b n : Int} (h : i64CheckedAdd a b = some n) :
    n = a + b ∧ I64_MIN ≤ a + b ∧ a + b ≤ I64_MAX := by
  unfold i64CheckedAdd at h
  by_cases hc : a + b > I64_MAX ∨ a + b < I64_MIN
  · rw [if_pos hc] at h
    exact Option.noConfusion h
  · rw [if_neg hc] at h
    push_neg at hc
    exact ⟨(Option.some.inj h).symm, hc.2, hc.1⟩

lemma verify_ok_iff (instrs : List Instruction) (ci : Nat)
    (m s : List Nat) (p : Pubkey) :
    verify_admin_signature_only instrs ci m s p = .ok () ↔
      scanInstructions instrs ci m s p = true := by
  unfold verify_admin_signature_only
  by_cases hs : scanInstructions instrs ci m s p = true
  · simp [hs]
  · simp [hs]

lemma claim_tokens_ok_facts {ts : TokenState} {ud : UserData}
    {mint_key : Pubkey} {uta : TokenAccount} {user_key : Pubkey}
    {instrs : List Instruction} {ci : Nat} {payload : ClaimPayload}
    {sig : List Nat} {now : Int} {ud2 : UserData}
    (h : claim_tokens ts ud mint_key uta user_key instrs ci payload sig now
        = .ok ud2) :
    ts.is_initialized = true ∧
    ts.token_mint ≠ Pubkey.dflt ∧
    mint_key = ts.token_mint ∧
    uta.mint = ts.token_mint ∧
    payload.user_address = user_key ∧
    uta.owner = user_key ∧
    payload.claim_amount > 0 ∧
    ud.user = user_key ∧
    payload.nonce = ud.nonce ∧
    timeAdmission ts ud now = none ∧
    now ≤ payload.expiry_time ∧
    sig.length = 64 ∧
    scanInstructions instrs ci (claimMessage payload) sig ts.admin = true ∧
    ud.nonce + 1 ≤ U64_MAX ∧
    ud2.user = ud.user ∧
    ud2.nonce = ud.nonce + 1 ∧
    ud2.last_claim_timestamp = now ∧
    ud2.total_claims = ud.total_claims + 1 ∧
    ud2.next_allowed_claim_time =
      (if ts.time_lock_enabled then now + ts.claim_period_seconds
       else i64SaturatingAdd now 1) := by
  unfold claim_tokens at h
  obtain ⟨hc1, h⟩ := ok_of_guard h
  obtain ⟨hc2, h⟩ := ok_of_guard h
  obtain ⟨hc3, h⟩ := ok_of_guard h
  obtain ⟨hc4, h⟩ := ok_of_guard h
  obtain ⟨hc5, h⟩ := ok_of_guard h
  obtain ⟨hc6, h⟩ := ok_of_guard h
  obtain ⟨hc7, h⟩ := ok_of_guard h
  obtain ⟨hc8, h⟩ := ok_of_guard h
  obtain ⟨hc9, h⟩ := ok_of_guard h
  obtain ⟨hta, h⟩ := ok_of_timeMatch h
  obtain ⟨hc10, h⟩ := ok_of_guard h
  obtain ⟨hc11, h⟩ := ok_of_guard h
  obtain ⟨hc12, h⟩ := ok_of_guard h
  obtain ⟨hc13, h⟩ := ok_of_guard h
  obtain ⟨hver, h⟩ := ok_of_exceptMatch h
  obtain ⟨new_nonce, hnn, h⟩ := ok_of_optNatMatch h
  obtain ⟨hnv, hno⟩ := u64CheckedAdd_some hnn
  obtain ⟨new_total, hnt, h⟩ := ok_of_optNatMatch h
  obtain ⟨htv, hto⟩ := u64CheckedAdd_some hnt
  rw [(verify_ok_iff instrs ci (claimMessage payload) sig ts.admin)] at hver
  subst hnv
  subst htv
  by_cases htl : ts.time_lock_enabled = true
  · rw [if_pos htl] at h
    obtain ⟨next_time, hxt, h⟩ := ok_of_optIntMatch h
    obtain ⟨hxv, hx1, hx2⟩ := i64CheckedAdd_some hxt
    subst hxv
    have hud2 := (Except.ok.inj h).symm
    subst hud2
    push_neg at hc1 hc2 hc3 hc4 hc5 hc6 hc7 hc8 hc9 hc11 hc12
    refine ⟨hc1, hc2, hc3, hc4, hc5, hc6, by omega, hc8, hc9, hta, hc11,
      hc12, hver, hno, rfl, rfl, rfl, rfl, ?_⟩
    simp [htl]
  · rw [if_neg htl] at h
    have hud2 := (Except.ok.inj h).symm
    subst hud2
    push_neg at hc1 hc2 hc3 hc4 hc5 hc6 hc7 hc8 hc9 hc11 hc12
    refine ⟨hc1, hc2, hc3, hc4, hc5, hc6, by omega, hc8, hc9, hta, hc11,
      hc12, hver, hno, rfl, rfl, rfl, rfl, ?_⟩
    simp [htl]

lemma claim_tokens_ok_of {ts : TokenState} {ud : UserData}
    {mint_key : Pubkey} {uta : TokenAccount} {user_key : Pubkey}
    {instrs : List Instruction} {ci : Nat} {payload : ClaimPayload}
    {sig : List Nat} {now : Int}
    (h1 : ts.is_initialized = true) (h2 : ts.token_mint ≠ Pubkey.dflt)
    (h3 : mint_key = ts.token_mint) (h4 : uta.mint = ts.token_mint)
    (h5 : payload.user_address = user_key) (h6 : uta.owner = user_key)
    (h7 : payload.claim_amount > 0) (h8 : ud.user = user_key)
    (h9 : payload.nonce = ud.nonce) (h10 : timeAdmission ts ud now = none)
    (h11 : now ≤ payload.expiry_time) (h12 : sig.length = 64)
    (h13 : sig.foldl (· + ·) 0 > 0)
    (h14 : scanInstructions instrs ci (claimMessage payload) sig ts.admin
        = true)
    (h15 : ud.nonce + 1 ≤ U64_MAX) (h16 : ud.total_claims + 1 ≤ U64_MAX)
    (h17 : ts.time_lock_enabled = true →
      I64_MIN ≤ now + ts.claim_period_seconds ∧
      now + ts.claim_period_seconds ≤ I64_MAX) :
    claim_tokens ts ud mint_key uta user_key instrs ci payload sig now =
      .ok { ud with
        nonce := ud.nonce + 1
        last_claim_timestamp := now
        total_claims := ud.total_claims + 1
        next_allowed_claim_time :=
          if ts.time_lock_enabled then now + ts.claim_period_seconds
          else i64SaturatingAdd now 1 } := by
  have hv : verify_admin_signature_only instrs ci (claimMessage payload) sig
      ts.admin = .ok () := (verify_ok_iff instrs ci _ sig ts.admin).mpr h14
  have hns : ¬(ud.total_claims > 0 ∧ ¬payload.nonce = ud.nonce) := by
    rintro ⟨-, hx⟩
    exact hx h9
  have ha : u64CheckedAdd ud.nonce 1 = some (ud.nonce + 1) := by
    unfold u64CheckedAdd
    rw [if_neg (by omega)]
  have hb : u64CheckedAdd ud.total_claims 1 = some (ud.total_claims + 1) := by
    unfold u64CheckedAdd
    rw [if_neg (by omega)]
  unfold claim_tokens
  rw [if_neg (not_not_intro h1), if_neg (not_not_intro h2),
      if_neg (not_not_intro h3), if_neg (not_not_intro h4),
      if_neg (not_not_intro h5), if_neg (not_not_intro h6),
      if_neg (not_not_intro h7), if_neg (not_not_intro h8),
      if_neg (not_not_intro h9), h10]
  by_cases htl : ts.time_lock_enabled = true
  · have hcI : i64CheckedAdd now ts.claim_period_seconds
        = some (now + ts.claim_period_seconds) := by
      unfold i64CheckedAdd
      rw [if_neg (by push_neg; exact ⟨(h17 htl).2, (h17 htl).1⟩)]
    simp [hns, h11, h12, h13, hv, ha, hb, hcI, htl]
  · simp [hns, h11, h12, h13, hv, ha, hb, htl]

lemma claim_tokens_invalid_nonce {ts : TokenState} {ud : UserData}
    {mint_key : Pubkey} {uta : TokenAccount} {user_key : Pubkey}
    {instrs : List Instruction} {ci : Nat} {payload : ClaimPayload}
    {sig : List Nat} {now : Int}
    (h1 : ts.is_initialized = true) (h2 : ts.token_mint ≠ Pubkey.dflt)
    (h3 : mint_key = ts.token_mint) (h4 : uta.mint = ts.token_mint)
    (h5 : payload.user_address = user_key) (h6 : uta.owner = user_key)
    (h7 : payload.claim_amount > 0) (h8 : ud.user = user_key)
    (h9 : payload.nonce ≠ ud.nonce) :
    claim_tokens ts ud mint_key uta user_key instrs ci payload sig now =
      .error .InvalidNonce := by
  unfold claim_tokens
  rw [if_neg (not_not_intro h1), if_neg (not_not_intro h2),
      if_neg (not_not_intro h3), if_neg (not_not_intro h4),
      if_neg (not_not_intro h5), if_neg (not_not_intro h6),
      if_neg (not_not_intro h7), if_neg (not_not_intro h8),
      if_pos h9]

lemma claim_tokens_time_error {ts : TokenState} {ud : UserData}
    {mint_key : Pubkey} {uta : TokenAccount} {user_key : Pubkey}
    {instrs : List Instruction} {ci : Nat} {payload : ClaimPayload}
    {sig : List Nat} {now : Int} {e : MercleError}
    (h1 : ts.is_initialized = true) (h2 : ts.token_mint ≠ Pubkey.dflt)
    (h3 : mint_key = ts.token_mint) (h4 : uta.mint = ts.token_mint)
    (h5 : payload.user_address = user_key) (h6 : uta.owner = user_key)
    (h7 : payload.claim_amount > 0) (h8 : ud.user = user_key)
    (h9 : payload.nonce = ud.nonce)
    (hta : timeAdmission ts ud now = some e) :
    claim_tokens ts ud mint_key uta user_key instrs ci payload sig now =
      .error e := by
  unfold claim_tokens
  rw [if_neg (not_not_intro h1), if_neg (not_not_intro h2),
      if_neg (not_not_intro h3), if_neg (not_not_intro h4),
      if_neg (not_not_intro h5), if_neg (not_not_intro h6),
      if_neg (not_not_intro h7), if_neg (not_not_intro h8),
      if_neg (not_not_intro h9), hta]

lemma claim_tokens_expired {ts : TokenState} {ud : UserData}
    {mint_key : Pubkey} {uta : TokenAccount} {user_key : Pubkey}
    {instrs : List Instruction} {ci : Nat} {payload : ClaimPayload}
    {sig : List Nat} {now : Int}
    (h1 : ts.is_initialized = true) (h2 : ts.token_mint ≠ Pubkey.dflt)
    (h3 : mint_key = ts.token_mint) (h4 : uta.mint = ts.token_mint)
    (h5 : payload.user_address = user_key) (h6 : uta.owner = user_key)
    (h7 : payload.claim_amount > 0) (h8 : ud.user = user_key)
    (h9 : payload.nonce = ud.nonce)
    (h10 : timeAdmission ts ud now = none)
    (hexp : ¬(now ≤ payload.expiry_time)) :
    claim_tokens ts ud mint_key uta user_key instrs ci payload sig now =
      .error .ClaimExpired := by
  have hns : ¬(ud.total_claims > 0 ∧ ¬payload.nonce = ud.nonce) := by
    rintro ⟨-, hx⟩
    exact hx h9
  unfold claim_tokens
  rw [if_neg (not_not_intro h1), if_neg (not_not_intro h2),
      if_neg (not_not_intro h3), if_neg (not_not_intro h4),
      if_neg (not_not_intro h5), if_neg (not_not_intro h6),
      if_neg (not_not_intro h7), if_neg (not_not_intro h8),
      if_neg (not_not_intro h9), h10]
  simp [hns, hexp]

lemma claim_tokens_unauthorized_dest {ts : TokenState} {ud : UserData}
    {mint_key : Pubkey} {uta : TokenAccount} {user_key : Pubkey}
    {instrs : List Instruction} {ci : Nat} {payload : ClaimPayload}
    {sig : List Nat} {now : Int}
    (h1 : ts.is_initialized = true) (h2 : ts.token_mint ≠ Pubkey.dflt)
    (h3 : mint_key = ts.token_mint) (h4 : uta.mint = ts.token_mint)
    (hdest : payload.user_address ≠ user_key ∨ uta.owner ≠ user_key) :
    claim_tokens ts ud mint_key uta user_key instrs ci payload sig now =
      .error .UnauthorizedDestination := by
  unfold claim_tokens
  rw [if_neg (not_not_intro h1), if_neg (not_not_intro h2),
      if_neg (not_not_intro h3), if_neg (not_not_intro h4)]
  by_cases ha : payload.user_address = user_key
  · rcases hdest with hx | hx
    · exact absurd ha hx
    · rw [if_neg (not_not_intro ha), if_pos hx]
  · rw [if_pos ha]

lemma claim_tokens_nonce_overflow {ts : TokenState} {ud : UserData}
    {mint_key : Pubkey} {uta : TokenAccount} {user_key : Pubkey}
    {instrs : List Instruction} {ci : Nat} {payload : ClaimPayload}
    {sig : List Nat} {now : Int}
    (h1 : ts.is_initialized = true) (h2 : ts.token_mint ≠ Pubkey.dflt)
    (h3 : mint_key = ts.token_mint) (h4 : uta.mint = ts.token_mint)
    (h5 : payload.user_address = user_key) (h6 : uta.owner = user_key)
    (h7 : payload.claim_amount > 0) (h8 : ud.user = user_key)
    (h9 : payload.nonce = ud.nonce) (h10 : timeAdmission ts ud now = none)
    (h11 : now ≤ payload.expiry_time) (h12 : sig.length = 64)
    (h13 : sig.foldl (· + ·) 0 > 0)
    (h14 : scanInstructions instrs ci (claimMessage payload) sig ts.admin
        = true)
    (hov : ud.nonce + 1 > U64_MAX) :
    claim_tokens ts ud mint_key uta user_key instrs ci payload sig now =
      .error .NonceOverflow := by
  have hv : verify_admin_signature_only instrs ci (claimMessage payload) sig
      ts.admin = .ok () := (verify_ok_iff instrs ci _ sig ts.admin).mpr h14
  have hns : ¬(ud.total_claims > 0 ∧ ¬payload.nonce = ud.nonce) := by
    rintro ⟨-, hx⟩
    exact hx h9
  have ha : u64CheckedAdd ud.nonce 1 = none := by
    unfold u64CheckedAdd
    rw [if_pos hov]
  unfold claim_tokens
  rw [if_neg (not_not_intro h1), if_neg (not_not_intro h2),
      if_neg (not_not_intro h3), if_neg (not_not_intro h4),
      if_neg (not_not_intro h5), if_neg (not_not_intro h6),
      if_neg (not_not_intro h7), if_neg (not_not_intro h8),
      if_neg (not_not_intro h9), h10]
  simp [hns, h11, h12, h13, hv, ha]

lemma err_of_guard {α : Type} {c : Prop} [Decidable c] {e x : MercleError}
    {rest : Except MercleError α}
    (h : (if c then Except.error e else rest) = Except.error x) :
    (c ∧ e = x) ∨ (¬c ∧ rest = Except.error x) := by
  by_cases hc : c
  · rw [if_pos hc] at h
    exact Or.inl ⟨hc, Except.error.inj h⟩
  · rw [if_neg hc] at h
    exact Or.inr ⟨hc, h⟩

lemma err_of_timeMatch {ta : Option MercleError}
    {rest : Except MercleError UserData} {x : MercleError}
    (h : (match ta with
          | some e => Except.error (α := UserData) e
          | none => rest) = Except.error x) :
    ta = some x ∨ (ta = none ∧ rest = Except.error x) := by
  cases ta with
  | none => exact Or.inr ⟨rfl, h⟩
  | some e => exact Or.inl (by rw [Except.error.inj h])

lemma err_of_exceptMatch {v : Except MercleError Unit}
    {rest : Except MercleError UserData} {x : MercleError}
    (h : (match v with
          | Except.error e => Except.error (α := UserData) e
          | Except.ok _ => rest) = Except.error x) :
    v = Except.error x ∨ (v = Except.ok () ∧ rest = Except.error x) := by
  cases v with
  | error e => exact Or.inl (by rw [Except.error.inj h])
  | ok a => exact Or.inr ⟨rfl, h⟩

lemma err_of_optNatMatch {o : Option Nat} {e : MercleError}
    {f : Nat → Except MercleError UserData} {x : MercleError}
    (h : (match o with
          | none => Except.error e
          | some n => f n) = Except.error x) :
    (o = none ∧ e = x) ∨ ∃ n, o = some n ∧ f n = Except.error x := by
  cases o with
  | none => exact Or.inl ⟨rfl, Except.error.inj h⟩
  | some n => exact Or.inr ⟨n, rfl, h⟩

lemma err_of_optIntMatch {o : Option Int} {e : MercleError}
    {f : Int → Except MercleError UserData} {x : MercleError}
    (h : (match o with
          | none => Except.error e
          | some n => f n) = Except.error x) :
    (o = none ∧ e = x) ∨ ∃ n, o = some n ∧ f n = Except.error x := by
  cases o with
  | none => exact Or.inl ⟨rfl, Except.error.inj h⟩
  | some n => exact Or.inr ⟨n, rfl, h⟩

lemma timeAdmission_not_nonce_seq (ts : TokenState) (ud : UserData)
    (now : Int) :
    timeAdmission ts ud now ≠ some .InvalidNonceSequence := by
  unfold timeAdmission
  split_ifs <;> simp

lemma verify_error_shape {instrs : List Instruction} {ci : Nat}
    {m s : List Nat} {p : Pubkey} {x : MercleError}
    (h : verify_admin_signature_only instrs ci m s p = .error x) :
    x = .AdminSignatureNotVerified := by
  unfold verify_admin_signature_only at h
  by_cases hs : scanInstructions instrs ci m s p = true
  · rw [if_pos hs] at h
    exact Except.noConfusion h
  · rw [if_neg hs] at h
    exact (Except.error.inj h).symm


/-- C1: `claim_tokens` admits a claim only when `payload.nonce` equals
the stored nonce exactly (any other nonce, with the preceding checks
passing, yields `InvalidNonce`); on success the stored nonce is
incremented by exactly 1; when the increment would overflow u64 the
claim fails closed with `NonceOverflow` instead of wrapping; and a
payload consumed by a successful claim is rejected with `InvalidNonce`
when replayed against the updated state, at any later time, with any
instruction list and any signature. -/
theorem C1_nonce_exactness_and_replay :
    (∀ (ts : TokenState) (ud : UserData) (mint_key : Pubkey)
       (uta : TokenAccount) (user_key : Pubkey)
       (instrs : List Instruction) (ci : Nat) (payload : ClaimPayload)
       (sig : List Nat) (now : Int) (ud2 : UserData),
       claim_tokens ts ud mint_key uta user_key instrs ci payload sig now
           = .ok ud2 →
       payload.nonce = ud.nonce ∧ ud2.nonce = ud.nonce + 1 ∧
       ud.nonce + 1 ≤ U64_MAX) ∧
    (∀ (ts : TokenState) (ud : UserData) (mint_key : Pubkey)
       (uta : TokenAccount) (user_key : Pubkey)
       (instrs : List Instruction) (ci : Nat) (payload : ClaimPayload)
       (sig : List Nat) (now : Int),
       ts.is_initialized = true → ts.token_mint ≠ Pubkey.dflt →
       mint_key = ts.token_mint → uta.mint = ts.token_mint →
       payload.user_address = user_key → uta.owner = user_key →
       payload.claim_amount > 0 → ud.user = user_key →
       payload.nonce ≠ ud.nonce →
       claim_tokens ts ud mint_key uta user_key instrs ci payload sig now
           = .error .InvalidNonce) ∧
    (∀ (ts : TokenState) (ud : UserData) (mint_key : Pubkey)
       (uta : TokenAccount) (user_key : Pubkey)
       (instrs : List Instruction) (ci : Nat) (payload : ClaimPayload)
       (sig : List Nat) (now : Int),
       ts.is_initialized = true → ts.token_mint ≠ Pubkey.dflt →
       mint_key = ts.token_mint → uta.mint = ts.token_mint →
       payload.user_address = user_key → uta.owner = user_key →
       payload.claim_amount > 0 → ud.user = user_key →
       payload.nonce = ud.nonce → timeAdmission ts ud now = none →
       now ≤ payload.expiry_time → sig.length = 64 →
       sig.foldl (· + ·) 0 > 0 →
       scanInstructions instrs ci (claimMessage payload) sig ts.admin
           = true →
       ud.nonce + 1 > U64_MAX →
       claim_tokens ts ud mint_key uta user_key instrs ci payload sig now
           = .error .NonceOverflow) ∧
    (∀ (ts : TokenState) (ud : UserData) (mint_key : Pubkey)
       (uta : TokenAccount) (user_key : Pubkey)
       (instrs : List Instruction) (ci : Nat) (payload : ClaimPayload)
       (sig : List Nat) (now : Int) (ud2 : UserData),
       claim_tokens ts ud mint_key uta user_key instrs ci payload sig now
           = .ok ud2 →
       ∀ (instrs2 : List Instruction) (ci2 : Nat) (sig2 : List Nat)
         (now2 : Int),
         claim_tokens ts ud2 mint_key uta user_key instrs2 ci2 payload
             sig2 now2 = .error .InvalidNonce) := by
  refine ⟨?_, ?_, ?_, ?_⟩
  · intro ts ud mint_key uta user_key instrs ci payload sig now ud2 h
    obtain ⟨-, -, -, -, -, -, -, -, f9, -, -, -, -, f14, -, f16, -⟩ :=
      claim_tokens_ok_facts h
    exact ⟨f9, f16, f14⟩
  · intro ts ud mint_key uta user_key instrs ci payload sig now
      h1 h2 h3 h4 h5 h6 h7 h8 h9
    exact claim_tokens_invalid_nonce h1 h2 h3 h4 h5 h6 h7 h8 h9
  · intro ts ud mint_key uta user_key instrs ci payload sig now
      h1 h2 h3 h4 h5 h6 h7 h8 h9 h10 h11 h12 h13 h14 hov
    exact claim_tokens_nonce_overflow h1 h2 h3 h4 h5 h6 h7 h8 h9 h10 h11
      h12 h13 h14 hov
  · intro ts ud mint_key uta user_key instrs ci payload sig now ud2 h
      instrs2 ci2 sig2 now2
    obtain ⟨f1, f2, f3, f4, f5, f6, f7, f8, f9, -, -, -, -, -, f15, f16,
      -⟩ := claim_tokens_ok_facts h
    refine claim_tokens_invalid_nonce f1 f2 f3 f4 f5 f6 f7
      (by rw [f15, f8]) ?_
    rw [f9, f16]
    omega

set_option maxRecDepth 10000 in
/-- Witness for C1: the example claim succeeds at nonce 0 and
incremented the nonce to 1, and replaying the same payload against the
updated state fails with `InvalidNonce`. -/
theorem C1_witness :
    exPayload.nonce = exUD.nonce ∧ exUD2.nonce = exUD.nonce + 1 ∧
    claim_tokens exTS exUD2 exMint exUTA exUser [] 0 exPayload exSig 501
      = .error .InvalidNonce := by
  have hok : claim_tokens exTS exUD exMint exUTA exUser [exClaimInstr] 1
      exPayload exSig 500 = .ok exUD2 := by rfl
  obtain ⟨hn, hn2, -⟩ := C1_nonce_exactness_and_replay.1 exTS exUD exMint
    exUTA exUser [exClaimInstr] 1 exPayload exSig 500 exUD2 hok
  exact ⟨hn, hn2, C1_nonce_exactness_and_replay.2.2.2 exTS exUD exMint
    exUTA exUser [exClaimInstr] 1 exPayload exSig 500 exUD2 hok [] 0
    exSig 501⟩

/-- C2: the verifier scans only instruction indices strictly before the
current one, marks the admin role verified exactly when some scanned
instruction is addressed to the Ed25519 precompile and decodes to the
expected message, admin public key and signature bytes (byte-for-byte);
matching is accumulate-only (a set flag is never cleared), and an
instruction not addressed to the precompile is skipped. -/
theorem C2_admin_match_characterization :
    (∀ (instrs : List Instruction) (n : Nat) (m s : List Nat) (p : Pubkey),
       scanInstructions instrs n m s p = true ↔
         ∃ i, i < n ∧ MatchesAdmin m s p (instrs.get? i)) ∧
    (∀ (m s : List Nat) (p : Pubkey) (o : Option Instruction),
       verifyStep m s p true o = true) ∧
    (∀ (m s : List Nat) (p : Pubkey) (acc : Bool) (inst : Instruction),
       inst.program_id ≠ ed25519ProgramID →
       verifyStep m s p acc (some inst) = acc) ∧
    (∀ (instrs : List Instruction) (n : Nat) (m s : List Nat) (p : Pubkey),
       verify_admin_signature_only instrs n m s p = .ok () ↔
         ∃ i, i < n ∧ MatchesAdmin m s p (instrs.get? i)) := by
  refine ⟨?_, ?_, ?_, ?_⟩
  · exact scanInstructions_true_iff
  · intro m s p o
    exact (verifyStep_true_iff m s p true o).mpr (Or.inl rfl)
  · intro m s p acc inst hprog
    simp [verifyStep, hprog]
  · intro instrs n m s p
    rw [verify_ok_iff]
    exact scanInstructions_true_iff instrs n m s p

set_option maxRecDepth 10000 in
/-- Witness for C2: a concrete transaction whose instruction 0 is a
well-formed Ed25519 record for the expected admin triple makes the scan
succeed, and an already-set flag survives a non-matching step. -/
theorem C2_witness :
    scanInstructions [exEdInstr] 1 exMsg exSig exAdminPk = true ∧
    verifyStep exMsg exSig exAdminPk true none = true := by
  refine ⟨(C2_admin_match_characterization.1 [exEdInstr] 1 exMsg exSig
    exAdminPk).mpr ⟨0, Nat.zero_lt_one, exEdInstr, exAdminPk.bytes, exSig,
    exMsg, rfl, rfl, by rfl, rfl, rfl, rfl⟩,
    C2_admin_match_characterization.2.1 exMsg exSig exAdminPk none⟩

/-- C3: the parser bounds-checks the header and every offset/size range
against the instruction's actual data length before slicing (and when it
does slice, the public key and signature have their nominal sizes);
malformed records — short data, `numSignatures ≠ 1`, or any
out-of-bounds range — parse to `none` and are skipped by the scan as
non-matches, never surfaced as errors; the verifier fails, with
`AdminSignatureNotVerified`, exactly when no scanned candidate matches,
and it never produces any other error. -/
theorem C3_malformed_records_skipped :
    (∀ data : List Nat, data.length < 16 →
       parse_ed25519_single data = none) ∧
    (∀ (data : List Nat) (k : Nat), data.get? 0 = some k → k ≠ 1 →
       parse_ed25519_single data = none) ∧
    (∀ (data : List Nat) (sig_off pk_off msg_off msg_size : Nat),
       read_u16_le data 2 = some sig_off →
       read_u16_le data 6 = some pk_off →
       read_u16_le data 10 = some msg_off →
       read_u16_le data 12 = some msg_size →
       (pk_off + 32 > data.length ∨ sig_off + 64 > data.length ∨
        msg_off + msg_size > data.length) →
       parse_ed25519_single data = none) ∧
    (∀ (data pk sig msg : List Nat),
       parse_ed25519_single data = some (pk, sig, msg) →
       pk.length = 32 ∧ sig.length = 64) ∧
    (∀ (m s : List Nat) (p : Pubkey) (acc : Bool) (inst : Instruction),
       parse_ed25519_single inst.data = none →
       verifyStep m s p acc (some inst) = acc) ∧
    (∀ (instrs : List Instruction) (n : Nat) (m s : List Nat)
       (p : Pubkey),
       verify_admin_signature_only instrs n m s p
           = .error .AdminSignatureNotVerified ↔
         ∀ i, i < n → ¬ MatchesAdmin m s p (instrs.get? i)) ∧
    (∀ (instrs : List Instruction) (n : Nat) (m s : List Nat)
       (p : Pubkey),
       verify_admin_signature_only instrs n m s p = .ok () ∨
       verify_admin_signature_only instrs n m s p
           = .error .AdminSignatureNotVerified) := by
  refine ⟨?_, ?_, ?_, ?_, ?_, ?_, ?_⟩
  · intro data h
    exact parse_none_short h
  · intro data k h0 hk
    exact parse_none_numsigs h0 hk
  · intro data sig_off pk_off msg_off msg_size h2 h6 h10 h12 hoob
    exact parse_none_oob h2 h6 h10 h12 hoob
  · intro data pk sig msg h
    exact parse_some_lengths h
  · intro m s p acc inst hparse
    by_cases hprog : inst.program_id = ed25519ProgramID
    · simp [verifyStep, hprog, hparse]
    · simp [verifyStep, hprog]
  · intro instrs n m s p
    unfold verify_admin_signature_only
    by_cases hs : scanInstructions instrs n m s p = true
    · rw [if_pos hs]
      refine iff_of_false (by simp) ?_
      intro hall
      obtain ⟨i, hi, hm⟩ := (scanInstructions_true_iff instrs n m s p).mp hs
      exact hall i hi hm
    · rw [if_neg hs]
      refine iff_of_true rfl ?_
      intro i hi hm
      exact hs ((scanInstructions_true_iff instrs n m s p).mpr ⟨i, hi, hm⟩)
  · intro instrs n m s p
    unfold verify_admin_signature_only
    by_cases hs : scanInstructions instrs n m s p = true
    · rw [if_pos hs]
      exact Or.inl rfl
    · rw [if_neg hs]
      exact Or.inr rfl

/-- Witness for C3: a 1-byte record parses to `none`, and with no
candidate instructions the verifier fails with
`AdminSignatureNotVerified`. -/
theorem C3_witness :
    parse_ed25519_single [5] = none ∧
    verify_admin_signature_only [] 0 exMsg exSig exAdminPk
      = .error .AdminSignatureNotVerified := by
  refine ⟨C3_malformed_records_skipped.1 [5] (by decide),
    (C3_malformed_records_skipped.2.2.2.2.2.1 [] 0 exMsg exSig
      exAdminPk).mpr ?_⟩
  intro i hi _
  exact absurd hi (Nat.not_lt_zero i)

/-- C4: the signed message is exactly the domain tag
`"MERCLE_CLAIM_V1"`, then the program's 32-byte identity, then the
canonical serialization of the payload (destination key, then amount,
expiry and nonce as fixed-width little-endian integers); the
construction is deterministic, and on well-formed payloads it is
injective, so changing any bound field changes the bytes. -/
theorem C4_message_determinism_injectivity :
    (∀ p : ClaimPayload,
       claimMessage p = domainTag ++ crateID.bytes ++
         (p.user_address.bytes ++ u64le p.claim_amount ++
          i64le p.expiry_time ++ u64le p.nonce)) ∧
    (∀ p q : ClaimPayload, p.wf → q.wf →
       (claimMessage p = claimMessage q ↔ p = q)) := by
  refine ⟨?_, ?_⟩
  · intro p
    rfl
  · intro p q hp hq
    constructor
    · exact claimMessage_inj hp hq
    · intro h
      rw [h]

/-- Witness for C4: injectivity instantiated at the example payload and
a copy differing only in the amount — their messages differ. -/
theorem C4_witness :
    ¬(claimMessage exPayload =
      claimMessage { exPayload with claim_amount := 101 }) := by
  intro h
  have := (C4_message_determinism_injectivity.2 exPayload
    { exPayload with claim_amount := 101 }
    (by refine ⟨⟨?_, ?_⟩, ?_, ?_, ?_, ?_⟩ <;> decide)
    (by refine ⟨⟨?_, ?_⟩, ?_, ?_, ?_, ?_⟩ <;> decide)).mp h
  exact absurd (congrArg ClaimPayload.claim_amount this) (by decide)

/-- C5: a successful `claim_tokens` implies the payload's declared
destination equals the signing user and the destination token account's
stored owner equals that same user; if either binding fails (with the
preceding mint/initialization checks passing) the claim fails with
`UnauthorizedDestination`. -/
theorem C5_destination_binding :
    (∀ (ts : TokenState) (ud : UserData) (mint_key : Pubkey)
       (uta : TokenAccount) (user_key : Pubkey)
       (instrs : List Instruction) (ci : Nat) (payload : ClaimPayload)
       (sig : List Nat) (now : Int) (ud2 : UserData),
       claim_tokens ts ud mint_key uta user_key instrs ci payload sig now
           = .ok ud2 →
       payload.user_address = user_key ∧ uta.owner = user_key) ∧
    (∀ (ts : TokenState) (ud : UserData) (mint_key : Pubkey)
       (uta : TokenAccount) (user_key : Pubkey)
       (instrs : List Instruction) (ci : Nat) (payload : ClaimPayload)
       (sig : List Nat) (now : Int),
       ts.is_initialized = true → ts.token_mint ≠ Pubkey.dflt →
       mint_key = ts.token_mint → uta.mint = ts.token_mint →
       (payload.user_address ≠ user_key ∨ uta.owner ≠ user_key) →
       claim_tokens ts ud mint_key uta user_key instrs ci payload sig now
           = .error .UnauthorizedDestination) := by
  refine ⟨?_, ?_⟩
  · intro ts ud mint_key uta user_key instrs ci payload sig now ud2 h
    obtain ⟨-, -, -, -, f5, f6, -⟩ := claim_tokens_ok_facts h
    exact ⟨f5, f6⟩
  · intro ts ud mint_key uta user_key instrs ci payload sig now
      h1 h2 h3 h4 hdest
    exact claim_tokens_unauthorized_dest h1 h2 h3 h4 hdest

set_option maxRecDepth 10000 in
/-- Witness for C5: the example successful claim satisfies both
destination bindings, and redirecting to an account owned by a third
party fails with `UnauthorizedDestination`. -/
theorem C5_witness :
    exPayload.user_address = exUser ∧ exUTA.owner = exUser ∧
    claim_tokens exTS exUD exMint
      { mint := exMint, owner := ⟨List.replicate 32 7⟩, amount := 0 }
      exUser [exClaimInstr] 1 exPayload exSig 500
      = .error .UnauthorizedDestination := by
  have hok : claim_tokens exTS exUD exMint exUTA exUser [exClaimInstr] 1
      exPayload exSig 500 = .ok exUD2 := by rfl
  obtain ⟨hd1, hd2⟩ := C5_destination_binding.1 exTS exUD exMint exUTA
    exUser [exClaimInstr] 1 exPayload exSig 500 exUD2 hok
  refine ⟨hd1, hd2, C5_destination_binding.2 exTS exUD exMint
    { mint := exMint, owner := ⟨List.replicate 32 7⟩, amount := 0 }
    exUser [exClaimInstr] 1 exPayload exSig 500 rfl (by decide) rfl rfl
    (Or.inr (by decide))⟩

/-- C6 (amended): across every state-mutating operation on an existing
policy account, once `transfers_permanently_enabled` is true it stays
true in any successful result; `pause_transfers` fails with
`TransfersPermanentlyEnabled` when the latch is set, and
`enable_transfers` refuses to run again with
`TransfersAlreadyPermanentlyEnabled`.  (The original claim's aside that
`pause_transfers` is the only operation writing
`transfers_enabled := false` is refuted by the counterexample below:
`create_token_mint` also writes it.) -/
theorem C6_permanent_latch :
    (∀ (ts ts' : TokenState) (a mk : Pubkey) (d : Nat) (nm sy : String),
       ts.transfers_permanently_enabled = true →
       create_token_mint ts a mk d nm sy = .ok ts' →
       ts'.transfers_permanently_enabled = true) ∧
    (∀ (ts ts' : TokenState) (k : Pubkey) (mi : MintAccount) (a : Pubkey)
       (d : Nat) (nm sy : String),
       ts.transfers_permanently_enabled = true →
       update_token_mint ts k mi a d nm sy = .ok ts' →
       ts'.transfers_permanently_enabled = true) ∧
    (∀ (ts ts' : TokenState) (a : Pubkey),
       ts.transfers_permanently_enabled = true →
       pause_transfers ts a = .ok ts' →
       ts'.transfers_permanently_enabled = true) ∧
    (∀ (ts ts' : TokenState) (a : Pubkey) (now : Int),
       ts.transfers_permanently_enabled = true →
       resume_transfers ts a now = .ok ts' →
       ts'.transfers_permanently_enabled = true) ∧
    (∀ (ts ts' : TokenState) (a : Pubkey) (now : Int),
       ts.transfers_permanently_enabled = true →
       permanently_enable_transfers ts a now = .ok ts' →
       ts'.transfers_permanently_enabled = true) ∧
    (∀ (ts ts' : TokenState) (a : Pubkey) (now : Int),
       ts.transfers_permanently_enabled = true →
       enable_transfers ts a now = .ok ts' →
       ts'.transfers_permanently_enabled = true) ∧
    (∀ (ts ts' : TokenState) (a : Pubkey) (cp : Int) (tl : Bool),
       ts.transfers_permanently_enabled = true →
       update_time_lock ts a cp tl = .ok ts' →
       ts'.transfers_permanently_enabled = true) ∧
    (∀ (ts ts' : TokenState) (c : Pubkey) (na : Option Pubkey),
       ts.transfers_permanently_enabled = true →
       set_upgrade_authority ts c na = .ok ts' →
       ts'.transfers_permanently_enabled = true) ∧
    (∀ (ts ts' : TokenState) (a tk : Pubkey),
       ts.transfers_permanently_enabled = true →
       create_treasury ts a tk = .ok ts' →
       ts'.transfers_permanently_enabled = true) ∧
    (∀ (ts : TokenState) (a : Pubkey),
       a = ts.admin → ts.is_initialized = true →
       ts.transfers_permanently_enabled = true →
       pause_transfers ts a = .error .TransfersPermanentlyEnabled) ∧
    (∀ (ts : TokenState) (a : Pubkey) (now : Int),
       a = ts.admin → ts.is_initialized = true →
       ts.token_mint ≠ Pubkey.dflt →
       ts.transfers_permanently_enabled = true →
       enable_transfers ts a now
           = .error .TransfersAlreadyPermanentlyEnabled) := by
  refine ⟨?_, ?_, ?_, ?_, ?_, ?_, ?_, ?_, ?_, ?_, ?_⟩
  · intro ts ts' a mk d nm sy hl h
    unfold create_token_mint at h
    repeat' split at h
    all_goals (try exact Except.noConfusion h)
    all_goals (cases h)
    all_goals (first | rfl | exact hl)
  · intro ts ts' k mi a d nm sy hl h
    unfold update_token_mint at h
    repeat' split at h
    all_goals (try exact Except.noConfusion h)
    all_goals (cases h)
    all_goals (first | rfl | exact hl)
  · intro ts ts' a hl h
    unfold pause_transfers at h
    repeat' split at h
    all_goals (try exact Except.noConfusion h)
    all_goals (cases h)
    all_goals (first | rfl | exact hl)
  · intro ts ts' a now hl h
    unfold resume_transfers at h
    repeat' split at h
    all_goals (try exact Except.noConfusion h)
    all_goals (cases h)
    all_goals (first | rfl | exact hl)
  · intro ts ts' a now hl h
    unfold permanently_enable_transfers at h
    repeat' split at h
    all_goals (try exact Except.noConfusion h)
    all_goals (cases h)
    all_goals (first | rfl | exact hl)
  · intro ts ts' a now hl h
    unfold enable_transfers at h
    repeat' split at h
    all_goals (try exact Except.noConfusion h)
    all_goals (cases h)
    all_goals (first | rfl | exact hl)
  · intro ts ts' a cp tl hl h
    unfold update_time_lock at h
    repeat' split at h
    all_goals (try exact Except.noConfusion h)
    all_goals (cases h)
    all_goals (first | rfl | exact hl)
  · intro ts ts' c na hl h
    unfold set_upgrade_authority at h
    repeat' split at h
    all_goals (try exact Except.noConfusion h)
    all_goals (cases h)
    all_goals (first | rfl | exact hl)
  · intro ts ts' a tk hl h
    unfold create_treasury at h
    repeat' split at h
    all_goals (try exact Except.noConfusion h)
    all_goals (cases h)
    all_goals (first | rfl | exact hl)
  · intro ts a ha hi hl
    unfold pause_transfers
    rw [if_neg (not_not_intro ha), if_neg (not_not_intro hi),
      if_pos (not_not_intro hl)]
  · intro ts a now ha hi hm hl
    unfold enable_transfers
    rw [if_neg (not_not_intro ha), if_neg (not_not_intro hi),
      if_neg (not_not_intro hm),
      if_pos (not_not_intro hl)]

/-- Witness for C6: on a latched example state, `pause_transfers` fails
with `TransfersPermanentlyEnabled` and `enable_transfers` fails with
`TransfersAlreadyPermanentlyEnabled`. -/
theorem C6_witness :
    pause_transfers { exTS with transfers_permanently_enabled := true }
      exAdminPk = .error .TransfersPermanentlyEnabled ∧
    enable_transfers { exTS with transfers_permanently_enabled := true }
      exAdminPk 0 = .error .TransfersAlreadyPermanentlyEnabled :=
  ⟨C6_permanent_latch.2.2.2.2.2.2.2.2.2.1
      { exTS with transfers_permanently_enabled := true } exAdminPk rfl
      rfl rfl,
   C6_permanent_latch.2.2.2.2.2.2.2.2.2.2
      { exTS with transfers_permanently_enabled := true } exAdminPk 0 rfl
      rfl (by decide) rfl⟩

lemma I64_MAX_eq : I64_MAX = 9223372036854775807 := by norm_num [I64_MAX]

lemma I64_MIN_eq : I64_MIN = -9223372036854775808 := by
  norm_num [I64_MIN]

lemma i64SaturatingAdd_eq {a b : Int} (h1 : I64_MIN ≤ a + b)
    (h2 : a + b ≤ I64_MAX) : i64SaturatingAdd a b = a + b := by
  unfold i64SaturatingAdd
  rw [if_neg (by omega), if_neg (by omega)]

/-- C7: with the time-lock on, admission requires
`now ≥ next_allowed_claim_time` (else `ClaimTimeLocked`) and, once a
claim exists, `now ≥ last_claim_time + claim_period_seconds` (else
`ClaimPeriodNotElapsed`); with a 3600-second period a second claim at
`last + 3599` fails while `last + 3600` is admitted; with the time-lock
off and a prior claim recorded, admission requires `now` strictly
greater than `last_claim_time`; a failed time admission aborts
`claim_tokens` with exactly that error, and a successful claim sets
`next_allowed_claim_time` to `now + claim_period_seconds` when the
time-lock is on and to `now + 1` otherwise. -/
theorem C7_time_lock_admission :
    (∀ (ts : TokenState) (ud : UserData) (now : Int),
       ts.time_lock_enabled = true →
       I64_MIN ≤ ud.last_claim_timestamp + ts.claim_period_seconds →
       ud.last_claim_timestamp + ts.claim_period_seconds ≤ I64_MAX →
       (timeAdmission ts ud now = none ↔
         now ≥ ud.next_allowed_claim_time ∧
         (ud.total_claims > 0 →
           now ≥ ud.last_claim_timestamp + ts.claim_period_seconds))) ∧
    (∀ (ts : TokenState) (ud : UserData) (now : Int),
       ts.time_lock_enabled = true →
       ¬(now ≥ ud.next_allowed_claim_time) →
       timeAdmission ts ud now = some .ClaimTimeLocked) ∧
    (∀ (ts : TokenState) (ud : UserData) (now : Int),
       ts.time_lock_enabled = true →
       now ≥ ud.next_allowed_claim_time →
       ud.total_claims > 0 →
       ¬(now ≥ i64SaturatingAdd ud.last_claim_timestamp
           ts.claim_period_seconds) →
       timeAdmission ts ud now = some .ClaimPeriodNotElapsed) ∧
    (∀ (ts : TokenState) (ud : UserData),
       ts.time_lock_enabled = true → ts.claim_period_seconds = 3600 →
       ud.total_claims > 0 →
       ud.next_allowed_claim_time = ud.last_claim_timestamp + 3600 →
       I64_MIN ≤ ud.last_claim_timestamp →
       ud.last_claim_timestamp + 3600 ≤ I64_MAX →
       timeAdmission ts ud (ud.last_claim_timestamp + 3599)
           = some .ClaimTimeLocked ∧
       timeAdmission ts ud (ud.last_claim_timestamp + 3600) = none) ∧
    (∀ (ts : TokenState) (ud : UserData) (now : Int),
       ts.time_lock_enabled = false → now ≤ I64_MAX →
       (timeAdmission ts ud now = none ↔
         (ud.last_claim_timestamp > 0 →
           now > ud.last_claim_timestamp))) ∧
    (∀ (ts : TokenState) (ud : UserData) (mint_key : Pubkey)
       (uta : TokenAccount) (user_key : Pubkey)
       (instrs : List Instruction) (ci : Nat) (payload : ClaimPayload)
       (sig : List Nat) (now : Int) (e : MercleError),
       ts.is_initialized = true → ts.token_mint ≠ Pubkey.dflt →
       mint_key = ts.token_mint → uta.mint = ts.token_mint →
       payload.user_address = user_key → uta.owner = user_key →
       payload.claim_amount > 0 → ud.user = user_key →
       payload.nonce = ud.nonce →
       timeAdmission ts ud now = some e →
       claim_tokens ts ud mint_key uta user_key instrs ci payload sig now
           = .error e) ∧
    (∀ (ts : TokenState) (ud : UserData) (mint_key : Pubkey)
       (uta : TokenAccount) (user_key : Pubkey)
       (instrs : List Instruction) (ci : Nat) (payload : ClaimPayload)
       (sig : List Nat) (now : Int) (ud2 : UserData),
       claim_tokens ts ud mint_key uta user_key instrs ci payload sig now
           = .ok ud2 →
       ud2.next_allowed_claim_time =
         (if ts.time_lock_enabled then now + ts.claim_period_seconds
          else i64SaturatingAdd now 1) ∧
       (ts.time_lock_enabled = false → I64_MIN ≤ now + 1 →
        now + 1 ≤ I64_MAX →
        ud2.next_allowed_claim_time = now + 1)) := by
  refine ⟨?_, ?_, ?_, ?_, ?_, ?_, ?_⟩
  · intro ts ud now htl hlo hhi
    unfold timeAdmission
    rw [if_pos htl,
      i64SaturatingAdd_eq hlo hhi]
    by_cases hA : now ≥ ud.next_allowed_claim_time
    · rw [if_neg (not_not_intro hA)]
      by_cases hB : ud.total_claims > 0 ∧
          ¬(now ≥ ud.last_claim_timestamp + ts.claim_period_seconds)
      · rw [if_pos hB]
        refine iff_of_false (by simp) ?_
        rintro ⟨-, hC⟩
        exact hB.2 (hC hB.1)
      · rw [if_neg hB]
        refine iff_of_true rfl ⟨hA, ?_⟩
        intro htc
        by_contra hx
        exact hB ⟨htc, hx⟩
    · rw [if_pos hA]
      refine iff_of_false (by simp) ?_
      rintro ⟨hC, -⟩
      exact hA hC
  · intro ts ud now htl hA
    unfold timeAdmission
    rw [if_pos htl, if_pos hA]
  · intro ts ud now htl hA htc hB
    unfold timeAdmission
    rw [if_pos htl, if_neg (not_not_intro hA), if_pos ⟨htc, hB⟩]
  · intro ts ud htl hcp htc hnext hlo hhi
    constructor
    · unfold timeAdmission
      rw [if_pos htl, if_pos (by rw [hnext]; omega)]
    · unfold timeAdmission
      rw [if_pos htl, if_neg (not_not_intro (by rw [hnext]))]
      rw [hcp, i64SaturatingAdd_eq (by omega) (by omega)]
      rw [if_neg (by omega)]
  · intro ts ud now htl hnow
    unfold timeAdmission
    rw [if_neg (by rw [htl]; exact Bool.false_ne_true)]
    by_cases hl0 : ud.last_claim_timestamp > 0
    · rw [if_pos hl0]
      by_cases hgt : now > ud.last_claim_timestamp
      · rw [if_neg (not_not_intro hgt)]
        have hsat : i64SaturatingAdd ud.last_claim_timestamp 1
            = ud.last_claim_timestamp + 1 := by
          refine i64SaturatingAdd_eq ?_ ?_
          · rw [I64_MIN_eq]
            omega
          · omega
        rw [hsat, if_neg (not_not_intro (by omega))]
        exact iff_of_true rfl fun _ => hgt
      · rw [if_pos hgt]
        exact iff_of_false (by simp) fun hx => hgt (hx hl0)
    · rw [if_neg hl0]
      exact iff_of_true rfl fun hx => absurd hx hl0
  · intro ts ud mint_key uta user_key instrs ci payload sig now e
      h1 h2 h3 h4 h5 h6 h7 h8 h9 hta
    exact claim_tokens_time_error h1 h2 h3 h4 h5 h6 h7 h8 h9 hta
  · intro ts ud mint_key uta user_key instrs ci payload sig now ud2 h
    obtain ⟨-, -, -, -, -, -, -, -, -, -, -, -, -, -, -, -, -, -, fN⟩ :=
      claim_tokens_ok_facts h
    refine ⟨fN, ?_⟩
    intro htl hlo hhi
    rw [fN, if_neg (by rw [htl]; exact Bool.false_ne_true)]
    exact i64SaturatingAdd_eq hlo hhi

/-- Witness for C7: for the post-claim example state (`last = 500`,
period 3600), time admission rejects at `last + 3599` and admits at
`last + 3600`. -/
theorem C7_witness :
    timeAdmission exTS exUD2 (exUD2.last_claim_timestamp + 3599)
        = some .ClaimTimeLocked ∧
    timeAdmission exTS exUD2 (exUD2.last_claim_timestamp + 3600)
        = none :=
  C7_time_lock_admission.2.2.2.1 exTS exUD2 rfl rfl (by decide)
    (by decide) (by decide) (by decide)

/-- C8: a claim is admitted through the expiry check exactly when
`now ≤ expiry_time`: every successful claim satisfies it, with all other
checks passing a claim whose `expiry_time` equals `now` succeeds, and
with the preceding checks passing a claim with `expiry_time = now - 1`
(or any `now > expiry_time`) fails with `ClaimExpired`. -/
theorem C8_expiry_boundary :
    (∀ (ts : TokenState) (ud : UserData) (mint_key : Pubkey)
       (uta : TokenAccount) (user_key : Pubkey)
       (instrs : List Instruction) (ci : Nat) (payload : ClaimPayload)
       (sig : List Nat) (now : Int) (ud2 : UserData),
       claim_tokens ts ud mint_key uta user_key instrs ci payload sig now
           = .ok ud2 →
       now ≤ payload.expiry_time) ∧
    (∀ (ts : TokenState) (ud : UserData) (mint_key : Pubkey)
       (uta : TokenAccount) (user_key : Pubkey)
       (instrs : List Instruction) (ci : Nat) (payload : ClaimPayload)
       (sig : List Nat) (now : Int),
       ts.is_initialized = true → ts.token_mint ≠ Pubkey.dflt →
       mint_key = ts.token_mint → uta.mint = ts.token_mint →
       payload.user_address = user_key → uta.owner = user_key →
       payload.claim_amount > 0 → ud.user = user_key →
       payload.nonce = ud.nonce → timeAdmission ts ud now = none →
       now > payload.expiry_time →
       claim_tokens ts ud mint_key uta user_key instrs ci payload sig now
           = .error .ClaimExpired) ∧
    (∀ (ts : TokenState) (ud : UserData) (mint_key : Pubkey)
       (uta : TokenAccount) (user_key : Pubkey)
       (instrs : List Instruction) (ci : Nat) (payload : ClaimPayload)
       (sig : List Nat) (now : Int),
       ts.is_initialized = true → ts.token_mint ≠ Pubkey.dflt →
       mint_key = ts.token_mint → uta.mint = ts.token_mint →
       payload.user_address = user_key → uta.owner = user_key →
       payload.claim_amount > 0 → ud.user = user_key →
       payload.nonce = ud.nonce → timeAdmission ts ud now = none →
       sig.length = 64 → sig.foldl (· + ·) 0 > 0 →
       scanInstructions instrs ci (claimMessage payload) sig ts.admin
           = true →
       ud.nonce + 1 ≤ U64_MAX → ud.total_claims + 1 ≤ U64_MAX →
       (ts.time_lock_enabled = true →
         I64_MIN ≤ now + ts.claim_period_seconds ∧
         now + ts.claim_period_seconds ≤ I64_MAX) →
       payload.expiry_time = now →
       ∃ ud2, claim_tokens ts ud mint_key uta user_key instrs ci payload
           sig now = .ok ud2) ∧
    (∀ (ts : TokenState) (ud : UserData) (mint_key : Pubkey)
       (uta : TokenAccount) (user_key : Pubkey)
       (instrs : List Instruction) (ci : Nat) (payload : ClaimPayload)
       (sig : List Nat) (now : Int),
       ts.is_initialized = true → ts.token_mint ≠ Pubkey.dflt →
       mint_key = ts.token_mint → uta.mint = ts.token_mint →
       payload.user_address = user_key → uta.owner = user_key →
       payload.claim_amount > 0 → ud.user = user_key →
       payload.nonce = ud.nonce → timeAdmission ts ud now = none →
       payload.expiry_time = now - 1 →
       claim_tokens ts ud mint_key uta user_key instrs ci payload sig now
           = .error .ClaimExpired) := by
  refine ⟨?_, ?_, ?_, ?_⟩
  · intro ts ud mint_key uta user_key instrs ci payload sig now ud2 h
    obtain ⟨-, -, -, -, -, -, -, -, -, -, f11, -⟩ :=
      claim_tokens_ok_facts h
    exact f11
  · intro ts ud mint_key uta user_key instrs ci payload sig now
      h1 h2 h3 h4 h5 h6 h7 h8 h9 h10 hexp
    exact claim_tokens_expired h1 h2 h3 h4 h5 h6 h7 h8 h9 h10 (by omega)
  · intro ts ud mint_key uta user_key instrs ci payload sig now
      h1 h2 h3 h4 h5 h6 h7 h8 h9 h10 h12 h13 h14 h15 h16 h17 hexp
    exact ⟨_, claim_tokens_ok_of h1 h2 h3 h4 h5 h6 h7 h8 h9 h10
      (by rw [hexp]) h12 h13 h14 h15 h16 h17⟩
  · intro ts ud mint_key uta user_key instrs ci payload sig now
      h1 h2 h3 h4 h5 h6 h7 h8 h9 h10 hexp
    exact claim_tokens_expired h1 h2 h3 h4 h5 h6 h7 h8 h9 h10 (by omega)

set_option maxRecDepth 10000 in
/-- Witness for C8: the example claim (expiry 1000) goes through when
`now = 1000` (expiry equal to now) and fails with `ClaimExpired` when
`now = 1001` (expiry equal to now - 1). -/
theorem C8_witness :
    (∃ ud2, claim_tokens exTS exUD exMint exUTA exUser [exClaimInstr] 1
        exPayload exSig 1000 = .ok ud2) ∧
    claim_tokens exTS exUD exMint exUTA exUser [exClaimInstr] 1
        exPayload exSig 1001 = .error .ClaimExpired := by
  refine ⟨C8_expiry_boundary.2.2.1 exTS exUD exMint exUTA exUser
    [exClaimInstr] 1 exPayload exSig 1000 rfl (by decide) rfl rfl rfl rfl
    (by decide) rfl rfl (by rfl) rfl (by decide) (by rfl) (by decide)
    (by decide) (fun _ => by constructor <;> decide) rfl,
    C8_expiry_boundary.2.2.2 exTS exUD exMint exUTA exUser [exClaimInstr]
    1 exPayload exSig 1001 rfl (by decide) rfl rfl rfl rfl (by decide)
    rfl rfl (by rfl) (by decide)⟩

/-- C9: the `InvalidNonceSequence` branch of the later nonce-progression
check in `claim_tokens` is dead code: for every input the function never
returns that error, because the earlier exact-equality nonce check has
already pinned `payload.nonce = user_data.nonce` and nothing changes
either value in between. -/
theorem C9_nonce_sequence_unreachable :
    ∀ (ts : TokenState) (ud : UserData) (mint_key : Pubkey)
      (uta : TokenAccount) (user_key : Pubkey)
      (instrs : List Instruction) (ci : Nat) (payload : ClaimPayload)
      (sig : List Nat) (now : Int),
      claim_tokens ts ud mint_key uta user_key instrs ci payload sig now
        ≠ .error .InvalidNonceSequence := by
  intro ts ud mint_key uta user_key instrs ci payload sig now h
  unfold claim_tokens at h
  rcases err_of_guard h with ⟨-, he⟩ | ⟨-, h⟩
  · exact MercleError.noConfusion he
  rcases err_of_guard h with ⟨-, he⟩ | ⟨-, h⟩
  · exact MercleError.noConfusion he
  rcases err_of_guard h with ⟨-, he⟩ | ⟨-, h⟩
  · exact MercleError.noConfusion he
  rcases err_of_guard h with ⟨-, he⟩ | ⟨-, h⟩
  · exact MercleError.noConfusion he
  rcases err_of_guard h with ⟨-, he⟩ | ⟨-, h⟩
  · exact MercleError.noConfusion he
  rcases err_of_guard h with ⟨-, he⟩ | ⟨-, h⟩
  · exact MercleError.noConfusion he
  rcases err_of_guard h with ⟨-, he⟩ | ⟨-, h⟩
  · exact MercleError.noConfusion he
  rcases err_of_guard h with ⟨-, he⟩ | ⟨-, h⟩
  · exact MercleError.noConfusion he
  rcases err_of_guard h with ⟨-, he⟩ | ⟨hc9, h⟩
  · exact MercleError.noConfusion he
  rcases err_of_timeMatch h with hta | ⟨-, h⟩
  · exact timeAdmission_not_nonce_seq ts ud now hta
  rcases err_of_guard h with ⟨⟨-, hne⟩, -⟩ | ⟨-, h⟩
  · exact hne (not_not.mp hc9)
  rcases err_of_guard h with ⟨-, he⟩ | ⟨-, h⟩
  · exact MercleError.noConfusion he
  rcases err_of_guard h with ⟨-, he⟩ | ⟨-, h⟩
  · exact MercleError.noConfusion he
  rcases err_of_guard h with ⟨-, he⟩ | ⟨-, h⟩
  · exact MercleError.noConfusion he
  rcases err_of_exceptMatch h with hv | ⟨-, h⟩
  · exact MercleError.noConfusion (verify_error_shape hv)
  rcases err_of_optNatMatch h with ⟨-, he⟩ | ⟨n1, -, h⟩
  · exact MercleError.noConfusion he
  rcases err_of_optNatMatch h with ⟨-, he⟩ | ⟨n2, -, h⟩
  · exact MercleError.noConfusion he
  by_cases htl : ts.time_lock_enabled = true
  · rw [if_pos htl] at h
    rcases err_of_optIntMatch h with ⟨-, he⟩ | ⟨n3, -, h⟩
    · exact MercleError.noConfusion he
    · exact Except.noConfusion h
  · rw [if_neg htl] at h
    exact Except.noConfusion h

/-- C10: `update_token_mint`, called by the stored admin on an
initialized state (with the mint-authority account constraint
satisfied), overwrites `token_mint` and resets `treasury_account` to the
default key without requiring the existing mint to be unset, whereas
`create_token_mint` fails with `TokenMintAlreadyCreated` whenever
`token_mint` is already non-default. -/
theorem C10_update_mint_bypasses_latch :
    (∀ (ts : TokenState) (tsk : Pubkey) (mi : MintAccount) (a : Pubkey)
       (d : Nat) (nm sy : String),
       mi.mint_authority = some tsk → a = ts.admin →
       ts.is_initialized = true →
       update_token_mint ts tsk mi a d nm sy =
         .ok { ts with
           token_mint := mi.key
           token_name := nm
           token_symbol := sy
           decimals := d
           treasury_account := Pubkey.dflt }) ∧
    (∀ (ts : TokenState) (a mk : Pubkey) (d : Nat) (nm sy : String),
       a = ts.admin → ts.is_initialized = true →
       ts.token_mint ≠ Pubkey.dflt →
       create_token_mint ts a mk d nm sy =
         .error .TokenMintAlreadyCreated) := by
  refine ⟨?_, ?_⟩
  · intro ts tsk mi a d nm sy hauth ha hi
    unfold update_token_mint
    rw [if_neg (not_not_intro hauth), if_neg (not_not_intro ha),
      if_neg (not_not_intro hi)]
  · intro ts a mk d nm sy ha hi hm
    unfold create_token_mint
    rw [if_neg (not_not_intro ha), if_neg (not_not_intro hi), if_pos hm]

/-- Witness for C10: on the example state, whose `token_mint` is already
set (non-default), `update_token_mint` succeeds and replaces the mint
while `create_token_mint` fails with `TokenMintAlreadyCreated`. -/
theorem C10_witness :
    update_token_mint exTS exUser
      ⟨⟨List.replicate 32 8⟩, some exUser⟩ exAdminPk 6 "New" "NEW" =
      .ok { exTS with
        token_mint := ⟨List.replicate 32 8⟩
        token_name := "New"
        token_symbol := "NEW"
        decimals := 6
        treasury_account := Pubkey.dflt } ∧
    create_token_mint exTS exAdminPk ⟨List.replicate 32 8⟩ 6 "New" "NEW" =
      .error .TokenMintAlreadyCreated :=
  ⟨C10_update_mint_bypasses_latch.1 exTS exUser
    ⟨⟨List.replicate 32 8⟩, some exUser⟩ exAdminPk 6 "New" "NEW" rfl rfl
    rfl,
   C10_update_mint_bypasses_latch.2 exTS exAdminPk
    ⟨List.replicate 32 8⟩ 6 "New" "NEW" rfl rfl (by decide)⟩

/-- Witness for C9: instantiated at the example inputs, `claim_tokens`
does not return `InvalidNonceSequence`. -/
theorem C9_witness :
    claim_tokens exTS exUD exMint exUTA exUser [] 0 exPayload exSig 500
      ≠ .error .InvalidNonceSequence :=
  C9_nonce_sequence_unreachable exTS exUD exMint exUTA exUser [] 0
    exPayload exSig 500

set_option maxRecDepth 10000 in
/-- Counterexample to C6 as originally stated: `pause_transfers` is not
the only operation that sets `transfers_enabled` back to false.  From a
state with transfers enabled — even permanently enabled — and no mint
configured yet, `create_token_mint` succeeds (it has no latch guard) and
its result has `transfers_enabled = false`. -/
theorem C6_counterexample :
    (({ exTS with
        token_mint := Pubkey.dflt
        transfers_enabled := true
        transfers_permanently_enabled := true } :
        TokenState).transfers_enabled = true) ∧
    create_token_mint
      { exTS with
        token_mint := Pubkey.dflt
        transfers_enabled := true
        transfers_permanently_enabled := true }
      exAdminPk exMint 9 "Riyal" "RYL"
      = .ok { exTS with transfers_permanently_enabled := true } ∧
    (({ exTS with transfers_permanently_enabled := true } :
        TokenState).transfers_enabled = false) := by
  refine ⟨rfl, ?_, rfl⟩
  rfl
